import Mathlib

/-!
Verification of the duosmium-mcp server (`src/server.ts`) against its
natural-language specification.

The repository ships two variants of `server.ts` in one file: variant A
(lines 1-883, catalog search against remote duosmium.org data) and variant B
(lines 883-1743, corpus search aggregating the local record store).  Both
variants share the title derivation, the tool handlers for placements,
rankings, info and fetch, and the directory listing; they differ only in the
`search` tool.

The sciolyff `Interpreter` consumed by the handlers is an external package;
where a claim depends on it, it is modelled from the specification (those
definitions carry a doc comment starting with `Modelled from the spec:`).
Everything else is translated directly from `server.ts`.
-/

/-- Tournament metadata as carried by the interpreter's `tournament` object:
the raw record's explicit `name` (optional), `level`, `state` and `location`
fields, passed through unchanged. -/
structure TournamentInfo where
  name : Option String
  level : String
  state : String
  location : String
deriving Repr, DecidableEq

/-- JavaScript truthiness of an optional string: `undefined` and the empty
string are falsy (used by `if (tInfo.name)` and by `name || tournamentId`). -/
def strTruthy : Option String → Bool
  | none => false
  | some s => !(s == "")

/-- Character-list core of JavaScript `String.replace` with a plain (non-regex)
pattern: the first occurrence of `pat` is replaced by `repl`, the rest of the
string is untouched. -/
def replaceFirstChars (pat repl : List Char) : List Char → List Char
  | [] => if pat.isEmpty then repl else []
  | c :: cs =>
    if pat.isPrefixOf (c :: cs) then repl ++ (c :: cs).drop pat.length
    else c :: replaceFirstChars pat repl cs

/-- JavaScript `String.replace` with a plain (non-regex) pattern string:
replaces only the first occurrence. -/
def replaceFirst (s pat repl : String) : String :=
  ⟨replaceFirstChars pat.data repl.data s.data⟩

/-- `expandStateName` inside `tournamentTitle` (server.ts lines 38-40):
`state.replace('sCA', 'SoCal').replace('nCA', 'NorCal')`. -/
def expandStateName (state : String) : String :=
  replaceFirst (replaceFirst state "sCA" "SoCal") "nCA" "NorCal"

/-- `tournamentTitle` (server.ts lines 37-53).  `none` is where the JavaScript
function falls off the end of the switch and yields `undefined`. -/
def tournamentTitle (tInfo : TournamentInfo) : Option String :=
  if strTruthy tInfo.name then tInfo.name
  else
    match tInfo.level with
    | "Nationals" => some "Science Olympiad National Tournament"
    | "States" => some (expandStateName tInfo.state ++ " Science Olympiad State Tournament")
    | "Regionals" => some (tInfo.location ++ " Regional Tournament")
    | "Invitational" => some (tInfo.location ++ " Invitational")
    | _ => none

/-- Lexicographic order on character lists (the comparison JavaScript's string
ordering performs on these ASCII identifiers); `String`'s own order is not
used because it does not reduce in the kernel. -/
def charsLE : List Char → List Char → Bool
  | [], _ => true
  | _ :: _, [] => false
  | a :: as, b :: bs => if a = b then charsLE as bs else decide (a < b)

/-- Lexicographic order on strings, via `charsLE`. -/
def strLE (a b : String) : Prop := charsLE a.data b.data = true

instance : DecidableRel strLE := fun a b => instDecidableEqBool (charsLE a.data b.data) true

/-- ASCII lower-casing, the fragment of JavaScript `toLowerCase` these
identifiers exercise. -/
def lowerChars (l : List Char) : List Char := l.map Char.toLower

/-- A raw team entry of a tournament record. -/
structure RawTeam where
  number : Nat
  school : String
  location : Option String
  suffix : Option String
  disqualified : Bool
  exhibition : Bool
deriving Repr, DecidableEq

/-- A raw placing entry of a tournament record: one (team, event) outcome.
`place = 0` is the reserved disqualified/no-show marker carried through from
the input. -/
structure RawPlacing where
  teamNumber : Nat
  eventName : String
  place : Nat
  tie : Bool
  points : Nat
deriving Repr, DecidableEq

/-- A raw tournament record as parsed from one results file: tournament
metadata, drop count, teams, event names and placings. -/
structure RawTournament where
  tournament : TournamentInfo
  drops : Nat
  teams : List RawTeam
  events : List String
  placings : List RawPlacing
deriving Repr, DecidableEq

/-- A derived placement: the raw placing together with the derived `dropped`
flag. -/
structure Placement where
  teamNumber : Nat
  eventName : String
  place : Nat
  tie : Bool
  points : Nat
  dropped : Bool
deriving Repr, DecidableEq

/-- A derived team: the raw team together with the derived total `points` and
overall `rank`. -/
structure Team where
  number : Nat
  school : String
  location : Option String
  suffix : Option String
  disqualified : Bool
  exhibition : Bool
  points : Nat
  rank : Nat
deriving Repr, DecidableEq

/-- The interpreter state the handlers read: `tournament`, `teams`, `events`
and `placings` members of a sciolyff `Interpreter` instance. -/
structure Interp where
  tournament : TournamentInfo
  teams : List Team
  events : List String
  placings : List Placement
deriving Repr, DecidableEq

/-- Modelled from the spec: the ordering the drop rule uses on one team's
placings — the missing sciolyff Interpreter sorts worst (highest points)
first, ties at the boundary resolved by dropping the lexicographically lowest
event name first (spec 4.2). -/
def worseFirst (a b : RawPlacing) : Prop :=
  b.points < a.points ∨ (a.points = b.points ∧ strLE a.eventName b.eventName)

instance : DecidableRel worseFirst := fun a b => by
  unfold worseFirst
  infer_instance

/-- Modelled from the spec: the placings of one team, in record order. -/
def placingsOf (raw : RawTournament) (n : Nat) : List RawPlacing :=
  raw.placings.filter (fun p => p.teamNumber == n)

/-- Modelled from the spec: the drop rule of the missing sciolyff Interpreter
(spec 4.2) — the event names of the `drops` worst placings of team `n`. -/
def droppedEvents (raw : RawTournament) (n : Nat) : List String :=
  (((placingsOf raw n).insertionSort worseFirst).take raw.drops).map (·.eventName)

/-- Modelled from the spec: a team's total points — the sum of points over its
non-dropped placings (spec 4.2). -/
def teamPoints (raw : RawTournament) (n : Nat) : Nat :=
  (((placingsOf raw n).filter
      (fun p => !((droppedEvents raw n).contains p.eventName))).map (·.points)).sum

/-- Modelled from the spec: overall rank by standard competition ranking —
one more than the number of non-exhibition teams with strictly fewer total
points; exhibition teams are excluded from the pool (spec 4.2). -/
def rankOf (raw : RawTournament) (n : Nat) : Nat :=
  1 + (raw.teams.filter
      (fun u => !u.exhibition && decide (teamPoints raw u.number < teamPoints raw n))).length

/-- Modelled from the spec: the derived team entity, carrying its raw identity
and status fields plus derived total points and overall rank. -/
def mkTeam (raw : RawTournament) (t : RawTeam) : Team :=
  { number := t.number, school := t.school, location := t.location,
    suffix := t.suffix, disqualified := t.disqualified,
    exhibition := t.exhibition, points := teamPoints raw t.number,
    rank := rankOf raw t.number }

/-- Rank order on derived teams. -/
def rankLE (a b : Team) : Prop := a.rank ≤ b.rank

instance : DecidableRel rankLE := fun a b => Nat.decLe a.rank b.rank

instance : IsTotal Team rankLE := ⟨fun a b => Nat.le_total a.rank b.rank⟩

instance : IsTrans Team rankLE := ⟨fun _ _ _ h h2 => Nat.le_trans h h2⟩

/-- Modelled from the spec: the sciolyff `Interpreter` (an external package,
absent from this repository's source).  It derives dropped flags, total points
and overall ranks from the raw record and presents `teams` ordered by derived
overall rank ascending (spec 4.2/4.3); `placings` keep record order, with the
derived `dropped` flag attached. -/
def interpret (raw : RawTournament) : Interp :=
  { tournament := raw.tournament,
    teams := (raw.teams.map (mkTeam raw)).insertionSort rankLE,
    events := raw.events,
    placings := raw.placings.map (fun p =>
      { teamNumber := p.teamNumber, eventName := p.eventName, place := p.place,
        tie := p.tie, points := p.points,
        dropped := (droppedEvents raw p.teamNumber).contains p.eventName }) }

/-- Result of one tool call: `answer` is ordinary text content returned to the
caller, `protocolError` is a thrown `McpError` surfaced at the protocol
level. -/
inductive ToolResult where
  | answer (text : String)
  | protocolError (msg : String)
deriving Repr, DecidableEq

/-- Outcome of `loadInterpreter` (server.ts lines 265-270) at the storage
boundary: the record loads and interprets, the file is missing (`ENOENT`), or
some other failure is thrown with a message. -/
inductive LoadOutcome where
  | ok (interp : Interp)
  | enoent
  | failure (msg : String)
deriving Repr, DecidableEq

/-- JavaScript `interpreter.tournament.name || tournamentId`: the explicit
name when truthy, else the tournament id. -/
def nameOrId (info : TournamentInfo) (tournamentId : String) : String :=
  if strTruthy info.name then info.name.getD "" else tournamentId

/-- Substring test on character lists (JavaScript `includes`): does `hay`
contain `needle` as a contiguous run? -/
def containsSub (needle : List Char) : List Char → Bool
  | [] => needle.isEmpty
  | c :: cs => needle.isPrefixOf (c :: cs) || containsSub needle cs

/-- The match predicate of `findTeam` (server.ts lines 274-277):
`t.number.toString() === teamId || t.school?.toLowerCase().includes(teamId.toLowerCase())`
(`school` is a required string in every record, so the optional chaining never
short-circuits). -/
def teamMatches (teamId : String) (t : Team) : Bool :=
  toString t.number == teamId ||
    containsSub (lowerChars teamId.data) (lowerChars t.school.data)

/-- `findTeam` (server.ts lines 273-278): `interpreter.teams.find(...)`, the
first team in corpus order satisfying the match predicate. -/
def findTeam (teams : List Team) (teamId : String) : Option Team :=
  teams.find? (teamMatches teamId)

/-- `get_team_placement` handler (server.ts lines 280-358). -/
def getTeamPlacement (load : LoadOutcome) (tournamentId teamId : String)
    (event : Option String) : ToolResult :=
  match load with
  | .enoent => .answer ("Tournament \"" ++ tournamentId ++ "\" not found")
  | .failure msg => .protocolError ("Failed to get team placement: " ++ msg)
  | .ok interp =>
    match findTeam interp.teams teamId with
    | none =>
      .answer ("Team \"" ++ teamId ++ "\" not found in tournament \"" ++ tournamentId ++ "\"")
    | some team =>
      match event with
      | none =>
        .answer ("Team: " ++ team.school ++ " (#" ++ toString team.number
          ++ ")\nOverall Rank: " ++ toString team.rank
          ++ "\nTotal Points: " ++ toString team.points
          ++ "\nTournament: " ++ nameOrId interp.tournament tournamentId
          ++ "\nDisqualified: " ++ (if team.disqualified then "Yes" else "No")
          ++ "\nExhibition: " ++ (if team.exhibition then "Yes" else "No"))
      | some ev =>
        match interp.placings.find? (fun p => p.teamNumber == team.number && p.eventName == ev) with
        | none =>
          .answer ("No placement found for team \"" ++ team.school ++ "\" (#"
            ++ toString team.number ++ ") in event \"" ++ ev ++ "\"")
        | some placement =>
          .answer ("Team: " ++ team.school ++ " (#" ++ toString team.number
            ++ ")\nEvent: " ++ ev
            ++ "\nPlacement: "
            ++ (if placement.place == 0 then "DQ/NS" else toString placement.place)
            ++ (if placement.tie then " (tie)" else "")
            ++ "\nPoints: "
            ++ (if placement.points == 0 then "N/A" else toString placement.points)
            ++ "\nTournament: " ++ nameOrId interp.tournament tournamentId)

/-- JavaScript `if (limit && limit > 0) teams = teams.slice(0, limit)`
(server.ts lines 370-372): the truncation applies only when `limit` is
present, truthy (non-zero) and positive. -/
def appliedTeams (teams : List Team) (limit : Option Int) : List Team :=
  match limit with
  | some l => if 0 < l then teams.take l.toNat else teams
  | none => teams

/-- One rankings line (server.ts lines 374-380). -/
def rankingLine (team : Team) : String :=
  toString team.rank ++ ". " ++ team.school ++ " (#" ++ toString team.number
    ++ ") - " ++ toString team.points ++ " points"
    ++ (if team.disqualified || team.exhibition then
          " (" ++ String.intercalate ", "
            ((if team.disqualified then ["DQ"] else [])
              ++ (if team.exhibition then ["Exhibition"] else [])) ++ ")"
        else "")

/-- `get_tournament_rankings` handler (server.ts lines 360-407). -/
def getTournamentRankings (load : LoadOutcome) (tournamentId : String)
    (limit : Option Int) : ToolResult :=
  match load with
  | .enoent => .answer ("Tournament \"" ++ tournamentId ++ "\" not found")
  | .failure msg => .protocolError ("Failed to get tournament rankings: " ++ msg)
  | .ok interp =>
    .answer ("Tournament: " ++ nameOrId interp.tournament tournamentId
      ++ "\nTotal Teams: " ++ toString interp.teams.length
      ++ "\n\nRankings:\n"
      ++ String.intercalate "\n" ((appliedTeams interp.teams limit).map rankingLine))

/-- `get_tournament_info` handler (server.ts lines 429-469). -/
def getTournamentInfo (load : LoadOutcome) (tournamentId : String) : ToolResult :=
  match load with
  | .enoent => .answer ("Tournament \"" ++ tournamentId ++ "\" not found")
  | .failure msg => .protocolError ("Failed to get tournament info: " ++ msg)
  | .ok interp =>
    .answer ("Tournament: " ++ nameOrId interp.tournament tournamentId
      ++ "\n\nTeams (" ++ toString interp.teams.length ++ "):\n"
      ++ String.intercalate "\n"
          (interp.teams.map (fun team => team.school ++ " (#" ++ toString team.number ++ ")"))
      ++ "\n\nEvents (" ++ toString interp.events.length ++ "):\n"
      ++ String.intercalate "\n" interp.events)

/-- The tournament title embedded in the JSON the `fetch` handler produces
(server.ts lines 763-768): `tournamentTitle(interpreter.tournament)`. -/
def fetchTitle (interp : Interp) : Option String :=
  tournamentTitle interp.tournament

/-- The tournament title `get_tournament_info` reports (server.ts line 449):
`interpreter.tournament.name || tournamentId`. -/
def infoTitle (interp : Interp) (tournamentId : String) : String :=
  nameOrId interp.tournament tournamentId

/-- The placements list `get_team_all_placements` extracts (server.ts lines
543-545): `interpreter.placings.filter(p => p.team.number === team.number)`;
the filter keeps the order of `interpreter.placings`. -/
def teamAllPlacements (interp : Interp) (team : Team) : List Placement :=
  interp.placings.filter (fun p => p.teamNumber == team.number)

/-- The undecorated part of one all-placements answer line (server.ts lines
559-561, 564): event name, place text with tie marker, and points. -/
def placementCore (p : Placement) : String :=
  p.eventName ++ ": "
    ++ (if p.place == 0 then "DQ/NS" else toString p.place)
    ++ (if p.tie then " (tie)" else "")
    ++ " (" ++ (if p.points == 0 then "N/A" else toString p.points) ++ " points)"

/-- One line of the all-placements answer (server.ts lines 558-564), with the
`[DROPPED]` flag appended exactly when the placement is dropped. -/
def placementLine (p : Placement) : String :=
  placementCore p ++ (if p.dropped then " [DROPPED]" else "")

/-- Result of `fs.readdir` on the results directory. -/
inductive DirResult where
  | ok (files : List String)
  | err
deriving Repr, DecidableEq

/-- `getAvailableTournaments` (server.ts lines 77-91): a readdir failure is
logged and the empty list returned; otherwise `.yaml` files are kept, the
extension stripped (`slice(0, -5)`) and the ids sorted lexicographically. -/
def getAvailableTournaments (dir : DirResult) : List String :=
  match dir with
  | .err => []
  | .ok files =>
    ((files.filter (fun f => List.isSuffixOf ".yaml".data f.data)).map
        (fun f => (⟨f.data.take (f.data.length - 5)⟩ : String))).insertionSort strLE

/-- `list_tournaments` handler (server.ts lines 409-427): the directory result
is always rendered as a normal text answer, since `getAvailableTournaments`
swallows the readdir failure itself. -/
def listTournaments (dir : DirResult) : ToolResult :=
  .answer ("Available Tournaments (" ++ toString (getAvailableTournaments dir).length
    ++ "):\n" ++ String.intercalate "\n" (getAvailableTournaments dir))

/-- One searchable entry of variant B's corpus search (server.ts lines
1493-1535). -/
structure CorpusEntry where
  kind : String
  id : String
  name : String
  details : String
  searchableText : String
deriving Repr, DecidableEq

/-- ASCII lower-casing on strings. -/
def strLower (s : String) : String := ⟨lowerChars s.data⟩

/-- The tournament entry variant B pushes for one loaded record (server.ts
lines 1505-1513). -/
def tournamentEntry (tournamentId : String) (interp : Interp) : CorpusEntry :=
  { kind := "tournament", id := tournamentId,
    name := nameOrId interp.tournament tournamentId,
    details := toString interp.teams.length ++ " teams, "
      ++ toString interp.events.length ++ " events",
    searchableText := strLower (nameOrId interp.tournament tournamentId ++ " " ++ tournamentId) }

/-- The team entries variant B pushes for one loaded record (server.ts lines
1516-1536); falsy parts of the details list are filtered out before
joining. -/
def teamEntries (tournamentId : String) (interp : Interp) : List CorpusEntry :=
  interp.teams.map (fun team =>
    { kind := "team", id := tournamentId ++ ":" ++ toString team.number,
      name := team.school,
      details := String.intercalate " "
        (["#" ++ toString team.number]
          ++ (if team.location.getD "" == "" then [] else ["(" ++ team.location.getD "" ++ ")"])
          ++ ["Rank: " ++ toString team.rank,
              "in " ++ nameOrId interp.tournament tournamentId]),
      searchableText := strLower (team.school ++ " " ++ team.location.getD "" ++ " "
        ++ toString team.number ++ " " ++ nameOrId interp.tournament tournamentId) })

/-- The per-tournament aggregation loop of variant B's corpus search
(server.ts lines 1499-1541): records are visited in order; a record that fails
to load is skipped (`continue`) and aggregation proceeds with the rest.
Returns the `allTournaments` and `allTeams` collections. -/
def buildCorpus (searchType : String) :
    List (String × LoadOutcome) → List CorpusEntry × List CorpusEntry
  | [] => ([], [])
  | (tournamentId, .ok interp) :: rest =>
    let acc := buildCorpus searchType rest
    ((if searchType == "tournament" || searchType == "both" then
        [tournamentEntry tournamentId interp] else []) ++ acc.1,
     (if searchType == "team" || searchType == "both" then
        teamEntries tournamentId interp else []) ++ acc.2)
  | (_, .enoent) :: rest => buildCorpus searchType rest
  | (_, .failure _) :: rest => buildCorpus searchType rest

/-- JavaScript regex word character (`\w`): ASCII letters, digits and
underscore. -/
def isWordChar (c : Char) : Bool :=
  c.isAlphanum || c == '_'

/-- A `\b` word boundary holds at a string edge (`none`) or next to a
non-word character. -/
def nonWordBoundary : Option Char → Bool
  | none => true
  | some c => !(isWordChar c)

/-- Global whole-word replacement of `team` by `school`
(`.replace(/\bteam\b/g, 'school')` on the already lower-cased query), scanning
left to right with the preceding original character threaded through for the
left boundary check. -/
def replaceWordTeam (prev : Option Char) : List Char → List Char
  | 't' :: 'e' :: 'a' :: 'm' :: rest =>
    if nonWordBoundary prev && nonWordBoundary rest.head? then
      's' :: 'c' :: 'h' :: 'o' :: 'o' :: 'l' :: replaceWordTeam (some 'm') rest
    else
      't' :: replaceWordTeam (some 't') ('e' :: 'a' :: 'm' :: rest)
  | c :: rest => c :: replaceWordTeam (some c) rest
  | [] => []

/-- Query normalization of variant A's catalog search (server.ts line 612):
`query.toLowerCase().replace(/\bteam\b/g, 'school')`. -/
def normalizeQuery (query : String) : String :=
  ⟨replaceWordTeam none (lowerChars query.data)⟩

/-- Response from one remote catalog source: HTTP `ok` flag and status
code. -/
structure FetchResponse where
  ok : Bool
  status : Nat
deriving Repr, DecidableEq

/-- A scored entry as returned by the fuzzy matcher (Fuse.js result item with
its score). -/
structure ScoredEntry where
  kind : String
  id : String
  name : String
  details : String
  score : Nat
deriving Repr, DecidableEq

/-- The ranked result list of variant A's catalog search (server.ts line 707):
`fuse.search(normalizedQuery).slice(0, limit)`, with the Fuse.js matcher over
the built search data abstracted as `matcher`. -/
def catalogRanked (matcher : String → List ScoredEntry) (query : String)
    (limit : Nat) : List ScoredEntry :=
  (matcher (normalizeQuery query)).take limit

/-- Variant A's catalog `search` handler (server.ts lines 603-749): both
remote sources are fetched; a response that is not `ok` throws, and the catch
wraps the message in a protocol-level `McpError`.  On the happy path the
normalized query is searched; the rendering of a non-empty hit list (lines
719-741) is abstracted as `format`. -/
def catalogSearch (tournamentsResponse schoolsResponse : FetchResponse)
    (matcher : String → List ScoredEntry) (format : List ScoredEntry → String)
    (query searchType : String) (limit : Nat) : ToolResult :=
  if !tournamentsResponse.ok then
    .protocolError ("Search failed: Failed to fetch tournaments: "
      ++ toString tournamentsResponse.status)
  else if !schoolsResponse.ok then
    .protocolError ("Search failed: Failed to fetch schools: "
      ++ toString schoolsResponse.status)
  else
    if (catalogRanked matcher query limit).isEmpty then
      .answer ("No "
        ++ (if searchType == "all" then "tournaments or schools" else searchType ++ "s")
        ++ " found matching \"" ++ query ++ "\"")
    else
      .answer (format (catalogRanked matcher query limit))

/-- Score order used by variant B's result merge (server.ts line 1577):
`(a.score || 0) - (b.score || 0)` ascending. -/
def scoreLE (a b : ScoredEntry) : Prop := a.score ≤ b.score

instance : DecidableRel scoreLE := fun a b => Nat.decLe a.score b.score

/-- The ranked result list of variant B's corpus search (server.ts lines
1543-1578): tournament hits and team hits for the raw, un-normalized `query`
are concatenated, sorted by ascending score and truncated to `limit`; the two
Fuse.js matchers are abstracted as `tournamentMatcher` and `teamMatcher`. -/
def corpusRanked (tournamentMatcher teamMatcher : String → List ScoredEntry)
    (query : String) (limit : Nat) : List ScoredEntry :=
  ((tournamentMatcher query ++ teamMatcher query).insertionSort scoreLE).take limit

/-- A matcher returning a single hit for the exact query `school` and nothing
otherwise; exhibits that variant B feeds the raw query to its matchers. -/
def schoolOnlyMatcher : String → List ScoredEntry :=
  fun q => if q == "school" then [⟨"tournament", "t1", "School Invitational", "", 0⟩] else []

/-- A matcher with no hits. -/
def emptyMatcher : String → List ScoredEntry := fun _ => []

/-- A trivial hit-list renderer. -/
def emptyFormat : List ScoredEntry → String := fun _ => ""

/-- Demo tournament record realizing the spec's rankings example: teams with
40, 40 and 55 total points. -/
def demoRaw : RawTournament :=
  { tournament := ⟨some "Demo Tournament 2024", "Invitational", "CA", "Demo"⟩,
    drops := 0,
    teams := [⟨1, "Alpha School", none, none, false, false⟩,
              ⟨2, "Beta School", none, none, false, false⟩,
              ⟨3, "Gamma School", none, none, false, false⟩],
    events := ["E1"],
    placings := [⟨1, "E1", 1, true, 40⟩, ⟨2, "E1", 1, true, 40⟩, ⟨3, "E1", 3, false, 55⟩] }

/-- A record with no explicit tournament name. -/
def noNameRaw : RawTournament :=
  { tournament := ⟨none, "Regionals", "sCA", "Orange County"⟩,
    drops := 0, teams := [], events := [], placings := [] }

/-- A record whose placings list the events out of lexicographic order. -/
def rawBA : RawTournament :=
  { tournament := ⟨some "BA Invitational", "Invitational", "CA", "BA"⟩,
    drops := 0,
    teams := [⟨1, "Delta School", none, none, false, false⟩],
    events := ["B", "A"],
    placings := [⟨1, "B", 1, false, 1⟩, ⟨1, "A", 1, false, 2⟩] }

example : tournamentTitle ⟨none, "States", "sCA", "x"⟩ =
    some "SoCal Science Olympiad State Tournament" := by decide

example : tournamentTitle ⟨none, "States", "TX", "x"⟩ =
    some "TX Science Olympiad State Tournament" := by decide

example : tournamentTitle ⟨some "My Invite", "States", "TX", "x"⟩ =
    some "My Invite" := by decide

example : tournamentTitle ⟨none, "Other", "TX", "x"⟩ = none := by decide

example : expandStateName "nCA" = "NorCal" := by decide

/-- Helper: a successful `find?` returns an element satisfying the predicate,
and every element strictly before it in the list fails the predicate. -/
theorem find_first_of_some {α : Type} (p : α → Bool) (l : List α) (t : α)
    (h : l.find? p = some t) :
    p t = true ∧ ∃ pre post, l = pre ++ t :: post ∧ ∀ u ∈ pre, p u = false := by
  induction l with
  | nil => simp at h
  | cons a l ih =>
    by_cases hp : p a = true
    · rw [List.find?_cons_of_pos _ hp] at h
      obtain rfl : a = t := Option.some.inj h
      exact ⟨hp, [], l, rfl, by simp⟩
    · have hp' : p a = false := by simpa using hp
      rw [List.find?_cons_of_neg _ (by simp [hp'])] at h
      obtain ⟨hpt, pre, post, heq, hall⟩ := ih h
      refine ⟨hpt, a :: pre, post, by simp [heq], ?_⟩
      intro u hu
      rcases List.mem_cons.mp hu with rfl | hu
      · exact hp'
      · exact hall u hu

/-- C1: for a loaded tournament, `get_tournament_rankings` presents the
interpreter's teams ordered by derived overall rank ascending; a present,
positive `limit` truncates the list to its first `limit` teams — a prefix of
the untruncated list, so each shown team keeps exactly the rank number it has
without the limit — and any other `limit` leaves the list whole. -/
theorem c1_rankings_order_and_limit (raw : RawTournament) (limit : Option Int) :
    List.Sorted rankLE (interpret raw).teams ∧
    List.Sorted rankLE (appliedTeams (interpret raw).teams limit) ∧
    (∀ l : Int, limit = some l → 0 < l →
      appliedTeams (interpret raw).teams limit = ((interpret raw).teams).take l.toNat) ∧
    List.IsPrefix (appliedTeams (interpret raw).teams limit) ((interpret raw).teams) := by
  have hsorted : List.Sorted rankLE (interpret raw).teams :=
    List.sorted_insertionSort rankLE _
  have hpre : List.IsPrefix (appliedTeams (interpret raw).teams limit) ((interpret raw).teams) := by
    match limit with
    | none => exact List.prefix_refl _
    | some l =>
      unfold appliedTeams
      dsimp only
      split
      · exact List.take_prefix _ _
      · exact List.prefix_refl _
  refine ⟨hsorted, hsorted.sublist hpre.sublist, ?_, hpre⟩
  intro l hl hpos
  subst hl
  simp [appliedTeams, hpos]

/-- C1 witness: at the demo record with limit 2 the hypotheses hold and the
shown list is the sorted two-team prefix. -/
theorem c1_rankings_order_and_limit_witness :
    appliedTeams (interpret demoRaw).teams (some 2) =
      ((interpret demoRaw).teams).take ((2 : Int).toNat) ∧
    List.Sorted rankLE (appliedTeams (interpret demoRaw).teams (some 2)) :=
  ⟨(c1_rankings_order_and_limit demoRaw (some 2)).2.2.1 2 rfl (by decide),
   (c1_rankings_order_and_limit demoRaw (some 2)).2.1⟩

/-- C2 counterexample: for a record with no explicit name, `fetch` embeds the
derived title (`Orange County Regional Tournament`) while
`get_tournament_info` reports the raw tournament id, so the two operations
disagree on the tournament's title. -/
theorem c2_title_counterexample :
    fetchTitle (interpret noNameRaw) = some "Orange County Regional Tournament" ∧
    infoTitle (interpret noNameRaw) "1989-03-10_sCA_orange_county_regional_b" =
      "1989-03-10_sCA_orange_county_regional_b" ∧
    (fetchTitle (interpret noNameRaw) ==
        some (infoTitle (interpret noNameRaw) "1989-03-10_sCA_orange_county_regional_b")) =
      false :=
  ⟨by decide, by decide, by decide⟩

/-- C2 amended: when the record carries a truthy explicit name the two
operations agree — both report that name; without one, `fetch` embeds the
derived title while `get_tournament_info` falls back to the tournament id, and
the two may differ. -/
theorem c2_amended_title_agreement (interp : Interp) (tournamentId n : String) :
    (interp.tournament.name = some n → n ≠ "" →
      fetchTitle interp = some n ∧ infoTitle interp tournamentId = n) ∧
    (strTruthy interp.tournament.name = false →
      fetchTitle interp = tournamentTitle interp.tournament ∧
      infoTitle interp tournamentId = tournamentId) := by
  constructor
  · intro hn hne
    constructor
    · simp [fetchTitle, tournamentTitle, strTruthy, hn, hne]
    · simp [infoTitle, nameOrId, strTruthy, hn, hne]
  · intro h
    exact ⟨rfl, by simp [infoTitle, nameOrId, h]⟩

/-- C2 amended witness: on the named demo record both operations report the
explicit name. -/
theorem c2_amended_title_agreement_witness :
    fetchTitle (interpret demoRaw) = some "Demo Tournament 2024" ∧
    infoTitle (interpret demoRaw) "demo-2024" = "Demo Tournament 2024" :=
  (c2_amended_title_agreement (interpret demoRaw) "demo-2024" "Demo Tournament 2024").1
    rfl (by decide)

/-- C3: the derived title is the explicit name when a truthy one is present;
otherwise the fixed national title for Nationals, the region-expanded state
title for States (with `sCA`/`nCA` expanded to `SoCal`/`NorCal`), the
location-based titles for Regionals and Invitational, and absent for any
other level. -/
theorem c3_title_derivation (t : TournamentInfo) :
    (strTruthy t.name = true → tournamentTitle t = t.name) ∧
    (strTruthy t.name = false →
      (t.level = "Nationals" →
        tournamentTitle t = some "Science Olympiad National Tournament") ∧
      (t.level = "States" →
        tournamentTitle t =
          some (expandStateName t.state ++ " Science Olympiad State Tournament")) ∧
      (t.level = "Regionals" →
        tournamentTitle t = some (t.location ++ " Regional Tournament")) ∧
      (t.level = "Invitational" →
        tournamentTitle t = some (t.location ++ " Invitational")) ∧
      (t.level ≠ "Nationals" → t.level ≠ "States" → t.level ≠ "Regionals" →
        t.level ≠ "Invitational" → tournamentTitle t = none)) ∧
    expandStateName "sCA" = "SoCal" ∧ expandStateName "nCA" = "NorCal" := by
  refine ⟨fun h => by simp [tournamentTitle, h], fun h => ?_, by decide, by decide⟩
  refine ⟨fun hl => by simp [tournamentTitle, h, hl],
          fun hl => by simp [tournamentTitle, h, hl],
          fun hl => by simp [tournamentTitle, h, hl],
          fun hl => by simp [tournamentTitle, h, hl],
          fun h1 h2 h3 h4 => ?_⟩
  simp only [tournamentTitle, h, Bool.false_eq_true, if_false]

/-- C3 witness: the States branch at a record with the `sCA` region
abbreviation, expanded to `SoCal`. -/
theorem c3_title_derivation_witness :
    tournamentTitle ⟨none, "States", "sCA", "x"⟩ =
      some (expandStateName "sCA" ++ " Science Olympiad State Tournament") ∧
    expandStateName "sCA" = "SoCal" :=
  ⟨((c3_title_derivation ⟨none, "States", "sCA", "x"⟩).2.1 (by decide)).2.1 rfl,
   (c3_title_derivation ⟨none, "States", "sCA", "x"⟩).2.2.1⟩

/-- C4: team resolution matches by exact number string or by case-insensitive
substring of the school name; a successful lookup returns a matching team all
of whose predecessors in corpus order fail to match (the first match), and the
lookup fails exactly when no team matches. -/
theorem c4_find_team_resolution (teams : List Team) (teamId : String) :
    (∀ t, findTeam teams teamId = some t →
      teamMatches teamId t = true ∧
      ∃ pre post, teams = pre ++ t :: post ∧ ∀ u ∈ pre, teamMatches teamId u = false) ∧
    (findTeam teams teamId = none ↔ ∀ u ∈ teams, teamMatches teamId u = false) ∧
    (∀ t, teamMatches teamId t =
      (toString t.number == teamId ||
        containsSub (lowerChars teamId.data) (lowerChars t.school.data))) := by
  refine ⟨fun t h => find_first_of_some _ _ _ h, ?_, fun t => rfl⟩
  constructor
  · intro h u hu
    simpa using List.find?_eq_none.mp h u hu
  · intro h
    exact List.find?_eq_none.mpr (fun u hu => by simp [h u hu])

/-- C4 witness: in the demo tournament the query `beta` resolves to the Beta
School team, whose predecessor fails to match. -/
theorem c4_find_team_resolution_witness :
    teamMatches "beta" (⟨2, "Beta School", none, none, false, false, 40, 1⟩ : Team) = true ∧
    ∃ pre post,
      (interpret demoRaw).teams =
        pre ++ (⟨2, "Beta School", none, none, false, false, 40, 1⟩ : Team) :: post ∧
      ∀ u ∈ pre, teamMatches "beta" u = false :=
  (c4_find_team_resolution (interpret demoRaw).teams "beta").1 _ (by decide)

/-- C5: `get_team_placement` turns both a missing record file (`ENOENT` at the
storage boundary) and an unresolved team into ordinary user-readable
not-found text answers, not protocol-level errors. -/
theorem c5_not_found_answers (interp : Interp) (tournamentId teamId : String)
    (event : Option String) :
    getTeamPlacement .enoent tournamentId teamId event =
      .answer ("Tournament \"" ++ tournamentId ++ "\" not found") ∧
    (findTeam interp.teams teamId = none →
      getTeamPlacement (.ok interp) tournamentId teamId event =
        .answer ("Team \"" ++ teamId ++ "\" not found in tournament \""
          ++ tournamentId ++ "\"")) := by
  refine ⟨rfl, fun h => ?_⟩
  simp [getTeamPlacement, h]

/-- C5 witness: the spec's example — team number 42 does not exist in the
demo tournament, and the answer is the not-found text. -/
theorem c5_not_found_answers_witness :
    getTeamPlacement (.ok (interpret demoRaw)) "demo-2024" "42" (some "Write It Do It") =
      .answer ("Team \"" ++ "42" ++ "\" not found in tournament \"" ++ "demo-2024" ++ "\"") :=
  (c5_not_found_answers (interpret demoRaw) "demo-2024" "42" (some "Write It Do It")).2
    (by decide)

/-- C6 counterexample: a record whose placings list event `B` before event `A`
is answered by `get_team_all_placements` in that record order — `["B", "A"]` —
which is not ordered by event name. -/
theorem c6_order_counterexample :
    ((interpret rawBA).teams.map (fun team =>
        (teamAllPlacements (interpret rawBA) team).map (·.eventName))) = [["B", "A"]] ∧
    (decide (List.Sorted strLE ["B", "A"])) = false :=
  ⟨by decide, by decide⟩

/-- C6 amended: `get_team_all_placements` returns exactly the team's
placements across all events — dropped placements included, with the
`[DROPPED]` flag rendered on precisely those — in the order of the
interpreter's placings list (a sublist of it), which is ordered by event name
only when that list is. -/
theorem c6_amended_all_placements (interp : Interp) (team : Team) :
    List.Sublist (teamAllPlacements interp team) interp.placings ∧
    (∀ p, p ∈ teamAllPlacements interp team ↔
      (p ∈ interp.placings ∧ p.teamNumber = team.number)) ∧
    (∀ p : Placement, p.dropped = true →
      placementLine p = placementCore p ++ " [DROPPED]") ∧
    (∀ p : Placement, p.dropped = false → placementLine p = placementCore p) := by
  refine ⟨List.filter_sublist _, ?_, ?_, ?_⟩
  · intro p
    simp [teamAllPlacements, List.mem_filter]
  · intro p h
    simp [placementLine, h]
  · intro p h
    simp [placementLine, h]

/-- C6 amended witness: a dropped placement renders with the flag appended. -/
theorem c6_amended_all_placements_witness :
    placementLine ⟨1, "X", 2, false, 5, true⟩ = placementCore ⟨1, "X", 2, false, 5, true⟩ ++ " [DROPPED]" :=
  (c6_amended_all_placements (interpret rawBA)
    ⟨1, "Delta School", none, none, false, false, 3, 1⟩).2.2.1 ⟨1, "X", 2, false, 5, true⟩ rfl

/-- C7: in corpus aggregation a record that fails to load is skipped and
aggregation continues — the corpus built from an item list containing a
failing record equals the corpus built with that record removed, so a single
bad record never aborts the overall search. -/
theorem c7_corpus_skips_failures (searchType : String)
    (xs ys : List (String × LoadOutcome)) (tournamentId : String)
    (bad : LoadOutcome) (hbad : ∀ interp, bad ≠ LoadOutcome.ok interp) :
    buildCorpus searchType (xs ++ (tournamentId, bad) :: ys) =
      buildCorpus searchType (xs ++ ys) := by
  induction xs with
  | nil =>
    cases bad with
    | ok interp => exact absurd rfl (hbad interp)
    | enoent => simp [buildCorpus]
    | failure msg => simp [buildCorpus]
  | cons a rest ih =>
    obtain ⟨tid, r⟩ := a
    cases r <;> simp [buildCorpus, ih]

/-- C7 witness: a parse failure in the middle of the corpus is skipped. -/
theorem c7_corpus_skips_failures_witness :
    buildCorpus "both"
        ([] ++ ("bad-record", LoadOutcome.failure "parse error")
          :: [("good", LoadOutcome.ok (interpret demoRaw))]) =
      buildCorpus "both" ([] ++ [("good", LoadOutcome.ok (interpret demoRaw))]) :=
  c7_corpus_skips_failures "both" [] [("good", LoadOutcome.ok (interpret demoRaw))]
    "bad-record" (LoadOutcome.failure "parse error") (fun interp => by simp)

/-- C8: if either remote catalog source responds unsuccessfully, the catalog
search reports a protocol-level fetch error naming the failed source, and in
particular never returns a normal (possibly empty) text answer. -/
theorem c8_catalog_fetch_error (tournamentsResponse schoolsResponse : FetchResponse)
    (matcher : String → List ScoredEntry) (format : List ScoredEntry → String)
    (query searchType : String) (limit : Nat) :
    (tournamentsResponse.ok = false →
      catalogSearch tournamentsResponse schoolsResponse matcher format query searchType limit =
        .protocolError ("Search failed: Failed to fetch tournaments: "
          ++ toString tournamentsResponse.status)) ∧
    (tournamentsResponse.ok = true → schoolsResponse.ok = false →
      catalogSearch tournamentsResponse schoolsResponse matcher format query searchType limit =
        .protocolError ("Search failed: Failed to fetch schools: "
          ++ toString schoolsResponse.status)) ∧
    ((tournamentsResponse.ok = false ∨ schoolsResponse.ok = false) →
      ∀ text,
        (catalogSearch tournamentsResponse schoolsResponse matcher format query searchType limit
          == ToolResult.answer text) = false) := by
  refine ⟨fun h => by simp [catalogSearch, h], fun h1 h2 => by simp [catalogSearch, h1, h2], ?_⟩
  intro h text
  rw [beq_eq_false_iff_ne]
  rcases h with h | h
  · simp [catalogSearch, h]
  · by_cases h1 : tournamentsResponse.ok <;> simp [catalogSearch, h1, h]

/-- C8 witness: concrete failing responses for each source. -/
theorem c8_catalog_fetch_error_witness :
    catalogSearch ⟨false, 500⟩ ⟨true, 200⟩ emptyMatcher emptyFormat "x" "all" 20 =
      .protocolError ("Search failed: Failed to fetch tournaments: " ++ toString (500 : Nat)) ∧
    catalogSearch ⟨true, 200⟩ ⟨false, 404⟩ emptyMatcher emptyFormat "x" "all" 20 =
      .protocolError ("Search failed: Failed to fetch schools: " ++ toString (404 : Nat)) :=
  ⟨(c8_catalog_fetch_error ⟨false, 500⟩ ⟨true, 200⟩ emptyMatcher emptyFormat "x" "all" 20).1 rfl,
   (c8_catalog_fetch_error ⟨true, 200⟩ ⟨false, 404⟩ emptyMatcher emptyFormat "x" "all" 20).2.1
     rfl rfl⟩

/-- C9 counterexample: the corpus search (variant B) passes the raw query to
its matchers, so the queries `team` and `school` — equal after the claimed
normalization — can produce different ranked result sets. -/
theorem c9_normalization_counterexample :
    normalizeQuery "team" = normalizeQuery "school" ∧
    (corpusRanked schoolOnlyMatcher schoolOnlyMatcher "team" 10
      == corpusRanked schoolOnlyMatcher schoolOnlyMatcher "school" 10) = false :=
  ⟨by decide, by decide⟩

/-- C9 amended: the catalog search (variant A) normalizes the query before
matching — case-folds it and replaces the whole word `team` by `school` — so
two queries equal after normalization produce the same ranked result list; the
corpus search (variant B) performs no such normalization. -/
theorem c9_amended_catalog_normalizes (matcher : String → List ScoredEntry)
    (q1 q2 : String) (limit : Nat) :
    (normalizeQuery q1 = normalizeQuery q2 →
      catalogRanked matcher q1 limit = catalogRanked matcher q2 limit) ∧
    normalizeQuery "Team" = "school" ∧
    normalizeQuery "TEAM rocket" = "school rocket" ∧
    normalizeQuery "teamwork" = "teamwork" := by
  refine ⟨fun h => by simp [catalogRanked, h], by decide, by decide, by decide⟩

/-- C9 amended witness: `Team` and `school` normalize alike and give the same
catalog ranking. -/
theorem c9_amended_catalog_normalizes_witness :
    catalogRanked schoolOnlyMatcher "Team" 5 = catalogRanked schoolOnlyMatcher "school" 5 :=
  (c9_amended_catalog_normalizes schoolOnlyMatcher "Team" "school" 5).1 (by decide)

/-- C10: when the results directory cannot be read, `getAvailableTournaments`
returns the empty list; `list_tournaments` then answers normally with a count
of zero, corpus aggregation scans an empty corpus, and no directory result
ever makes `list_tournaments` raise a protocol-level error. -/
theorem c10_dir_error_empty :
    getAvailableTournaments .err = [] ∧
    listTournaments .err = .answer "Available Tournaments (0):\n" ∧
    (∀ searchType (loadOf : String → LoadOutcome),
      buildCorpus searchType
          ((getAvailableTournaments .err).map (fun tid => (tid, loadOf tid))) = ([], [])) ∧
    (∀ dir msg, (listTournaments dir == ToolResult.protocolError msg) = false) := by
  refine ⟨rfl, by decide, fun s f => rfl, fun dir msg => ?_⟩
  rw [beq_eq_false_iff_ne]
  cases dir <;> simp [listTournaments]
